import Mathlib

/-!
Verification of the session-lifecycle, conversation-accumulation and
document-generation core of the chasik bot (files `bot.py` and `utils.py`).

The Conversation Store (`SessionManager.sessions`, a Python dict from int
user id to a session dict) is embedded as an association list with the
dict update discipline (replace in place when the key is present, append
otherwise), which matches the insertion-order semantics of Python dicts
with unique keys. Sessions are records mirroring the dict literal built in
`create_session`. Handlers are pure functions from the store, the inbound
data and the completion-backend outcome to a result record holding the new
store, the replies sent and the completion requests issued; the backend is
an external collaborator, so its outcome is a parameter (`Except Unit
String`).
-/

/-- One entry of a conversation history: the `{'role': ..., 'content': ...}`
dict appended by `SessionManager.add_message` (utils.py:202-205). -/
structure Msg where
  role : String
  content : String
deriving DecidableEq, Repr

/-- The `metadata` sub-dict of a session (utils.py:178-181). -/
structure Metadata where
  created_at : Option String
  message_count : Nat
deriving DecidableEq, Repr

/-- The session dict built by `SessionManager.create_session` (utils.py:174-182). -/
structure Session where
  user_id : Int
  messages : List Msg
  state : String
  metadata : Metadata
deriving DecidableEq, Repr

/-- The `SessionManager.sessions` mapping (utils.py:138), a Python dict from
int user id to session, embedded as an association list in insertion order. -/
abbrev Store := List (Int × Session)

/-- Python dict assignment `d[k] = v`: replace the value in place when the
key is present, append the pair otherwise. -/
def setEntry : Store → Int → Session → Store
  | [], k, v => [(k, v)]
  | (k0, v0) :: rest, k, v =>
      if k0 = k then (k, v) :: rest else (k0, v0) :: setEntry rest k v

/-- Python `del d[k]` guarded by `if k in d` (utils.py:194-195): remove the
entry for the key when present, keep the rest. -/
def eraseEntry : Store → Int → Store
  | [], _ => []
  | (k0, v0) :: rest, k =>
      if k0 = k then rest else (k0, v0) :: eraseEntry rest k

/-- In-place mutation of the session stored under a key, guarded by
`if user_id in self.sessions`: a no-op when the key is absent. -/
def modifyEntry (m : Store) (k : Int) (f : Session → Session) : Store :=
  m.map (fun e => if e.1 = k then (e.1, f e.2) else e)

/-- `SessionManager.get_session` (utils.py:168-170): `self.sessions.get(user_id)`. -/
def get_session (m : Store) (user_id : Int) : Option Session :=
  (m.find? (fun e => e.1 == user_id)).map (fun e => e.2)

/-- The fresh session dict of `SessionManager.create_session` (utils.py:174-182). -/
def new_session (user_id : Int) : Session :=
  { user_id := user_id
    messages := []
    state := "in_conversation"
    metadata := { created_at := none, message_count := 0 } }

/-- `SessionManager.create_session` (utils.py:172-185): store a fresh session
under the user id and return it. -/
def create_session (m : Store) (user_id : Int) : Store × Session :=
  (setEntry m user_id (new_session user_id), new_session user_id)

/-- `SessionManager.delete_session` (utils.py:192-197), without the save call
(persistence is an external collaborator). -/
def delete_session (m : Store) (user_id : Int) : Store :=
  eraseEntry m user_id

/-- `SessionManager.add_message` (utils.py:199-206): when the session exists,
append a `{role, content}` entry and increment `message_count`. -/
def add_message (m : Store) (user_id : Int) (role content : String) : Store :=
  modifyEntry m user_id (fun s =>
    { s with
      messages := s.messages ++ [{ role := role, content := content }]
      metadata := { s.metadata with message_count := s.metadata.message_count + 1 } })

/-- `SessionManager.get_messages` (utils.py:208-213): the stored history, or
the empty list when no session exists. -/
def get_messages (m : Store) (user_id : Int) : List Msg :=
  match get_session m user_id with
  | some s => s.messages
  | none => []

/-- `SessionManager.set_state` (utils.py:215-218): overwrite the state when
the session exists, no-op otherwise. -/
def set_state (m : Store) (user_id : Int) (state : String) : Store :=
  modifyEntry m user_id (fun s => { s with state := state })

/-- `SessionManager.get_state` (utils.py:220-225): the stored state, or none
when no session exists. -/
def get_state (m : Store) (user_id : Int) : Option String :=
  match get_session m user_id with
  | some s => some s.state
  | none => none

/-! ### Store lemmas -/

theorem get_session_nil (w : Int) : get_session [] w = none := rfl

theorem get_session_cons (k0 : Int) (v0 : Session) (rest : Store) (w : Int) :
    get_session ((k0, v0) :: rest) w =
      if k0 = w then some v0 else get_session rest w := by
  by_cases h : k0 = w
  · rw [get_session, List.find?_cons_of_pos]
    · simp [h]
    · simp [h]
  · rw [get_session, List.find?_cons_of_neg, if_neg h]
    · rfl
    · simp [h]

theorem setEntry_cons (k0 : Int) (v0 : Session) (rest : Store) (k : Int) (v : Session) :
    setEntry ((k0, v0) :: rest) k v =
      if k0 = k then (k, v) :: rest else (k0, v0) :: setEntry rest k v := rfl

theorem eraseEntry_cons (k0 : Int) (v0 : Session) (rest : Store) (k : Int) :
    eraseEntry ((k0, v0) :: rest) k =
      if k0 = k then rest else (k0, v0) :: eraseEntry rest k := rfl

theorem modifyEntry_cons (k0 : Int) (v0 : Session) (rest : Store) (k : Int)
    (f : Session → Session) :
    modifyEntry ((k0, v0) :: rest) k f =
      (if k0 = k then (k0, f v0) else (k0, v0)) :: modifyEntry rest k f := by
  by_cases h : k0 = k <;> simp [modifyEntry, h]

theorem get_session_setEntry_self (m : Store) (k : Int) (v : Session) :
    get_session (setEntry m k v) k = some v := by
  induction m with
  | nil => simp [setEntry, get_session_cons]
  | cons e rest ih =>
    obtain ⟨k0, v0⟩ := e
    by_cases h : k0 = k
    · simp [setEntry_cons, h, get_session_cons]
    · simp [setEntry_cons, h, get_session_cons, ih]

theorem get_session_setEntry_ne (m : Store) (k w : Int) (v : Session)
    (hne : k ≠ w) : get_session (setEntry m k v) w = get_session m w := by
  induction m with
  | nil => simp [setEntry, get_session_cons, get_session_nil, hne]
  | cons e rest ih =>
    obtain ⟨k0, v0⟩ := e
    by_cases h : k0 = k
    · subst h
      simp [setEntry_cons, get_session_cons, hne]
    · simp [setEntry_cons, h, get_session_cons, ih]

theorem get_session_eraseEntry_ne (m : Store) (k w : Int)
    (hne : k ≠ w) :
    get_session (eraseEntry m k) w = get_session m w := by
  induction m with
  | nil => simp [eraseEntry]
  | cons e rest ih =>
    obtain ⟨k0, v0⟩ := e
    by_cases h : k0 = k
    · subst h
      simp [eraseEntry_cons, get_session_cons, hne]
    · simp [eraseEntry_cons, h, get_session_cons, ih]

theorem get_session_modifyEntry_self (m : Store) (k : Int) (f : Session → Session) :
    get_session (modifyEntry m k f) k = (get_session m k).map f := by
  induction m with
  | nil => simp [get_session_nil, modifyEntry]
  | cons e rest ih =>
    obtain ⟨k0, v0⟩ := e
    by_cases h : k0 = k
    · subst h
      simp [modifyEntry_cons, get_session_cons]
    · simp [modifyEntry_cons, h, get_session_cons, ih]

theorem get_session_modifyEntry_ne (m : Store) (k w : Int) (f : Session → Session)
    (hne : k ≠ w) : get_session (modifyEntry m k f) w = get_session m w := by
  induction m with
  | nil => simp [modifyEntry]
  | cons e rest ih =>
    obtain ⟨k0, v0⟩ := e
    by_cases h : k0 = k
    · subst h
      simp [modifyEntry_cons, get_session_cons, hne, ih]
    · simp [modifyEntry_cons, h, get_session_cons, ih]

/-! ### Bot handler layer (bot.py) -/

/-- Modelled from the spec: the fixed system instruction `prompts.SYSTEM_PROMPT`
prepended to every conversational completion request (the file `prompts.py` is
not part of the repository snapshot; only its import in bot.py is). -/
def SYSTEM_PROMPT : String := "Ты — опытный продакт-менеджер. Помоги пользователю структурировать идею фичи, задавая уточняющие вопросы."

/-- A request to the completion backend: the ordered message list and the
max-token budget passed to `chat_completion` (utils.py:88-93). The
sampling temperature is a float knob never branched on, so it is omitted. -/
structure ChatRequest where
  messages : List Msg
  max_tokens : Nat
deriving DecidableEq, Repr

/-- The user-visible replies a handler can emit, one constructor per
`reply_text` / `reply_document` call site of bot.py. Reply text constants
live in the absent `prompts.py`, so replies are identified by constructor. -/
inductive Reply where
  | noActiveSession
  | generateNotReady
  | generatingWait
  | documentSent (document : String)
  | briefFailure
  | assistantText (text : String)
  | conversationFailure
deriving DecidableEq, Repr

/-- Result of running one handler: the store afterwards, the replies sent to
the user in order, and the completion requests issued to the backend in order. -/
structure HandlerResult where
  store : Store
  replies : List Reply
  requests : List ChatRequest
deriving DecidableEq, Repr

/-- Character-wise lower-casing, embedding Python `str.lower()` on the
ASCII-ranged text the bot handles. -/
def lowerStr (s : String) : String := String.mk (s.data.map Char.toLower)

/-- Character-wise upper-casing, embedding Python `str.upper()` on the
ASCII-ranged role names (`"user"`, `"assistant"`) the store produces. -/
def upperStr (s : String) : String := String.mk (s.data.map Char.toUpper)

/-- Python substring containment `pat in l` over character lists. -/
def hasSubList (pat : List Char) : List Char → Bool
  | [] => pat.isEmpty
  | c :: rest => pat.isPrefixOf (c :: rest) || hasSubList pat rest

/-- The generation-trigger scan of bot.py:229: `'/generate' in ai_response.lower()`. -/
def containsTrigger (s : String) : Bool :=
  hasSubList "/generate".data (lowerStr s).data

/-- `process_conversation` (bot.py:192-243): append the user message, build
the outbound list (system instruction plus history, with the first-message
special case of bot.py:205-213), issue one completion request, and on success
append the reply and run the trigger scan; on backend failure reply with the
generic failure text. The backend outcome is the `backend` parameter. -/
def process_conversation (m : Store) (user_id : Int) (user_message : String)
    (backend : Except Unit String) : HandlerResult :=
  let m1 := add_message m user_id "user" user_message
  let messages := get_messages m1 user_id
  let openai_messages :=
    if messages.length = 1 then
      [{ role := "system", content := SYSTEM_PROMPT },
       { role := "user", content := user_message }]
    else
      { role := "system", content := SYSTEM_PROMPT } :: messages
  let req : ChatRequest := { messages := openai_messages, max_tokens := 800 }
  match backend with
  | .error _ => { store := m1, replies := [Reply.conversationFailure], requests := [req] }
  | .ok ai_response =>
    let m2 := add_message m1 user_id "assistant" ai_response
    let m3 :=
      if containsTrigger ai_response then set_state m2 user_id "ready_for_brief"
      else m2
    { store := m3, replies := [Reply.assistantText ai_response], requests := [req] }

/-- Modelled from the spec: the fixed template `prompts.BRIEF_GENERATION_PROMPT`
(absent `prompts.py`), as the text before and after its single
`{conversation_history}` placeholder. -/
def briefTemplateBefore : String := "История обсуждения:\n"

/-- Modelled from the spec: the tail of the fixed template
`prompts.BRIEF_GENERATION_PROMPT` after the placeholder. -/
def briefTemplateAfter : String := "\n\nСоставь структурированный продуктовый бриф в формате Markdown."

/-- One line of the formatted history of `generate_brief_document`
(utils.py:241-244): the role upper-cased, a colon and space, the content. -/
def formatEntry (msg : Msg) : String := upperStr msg.role ++ ": " ++ msg.content

/-- The `formatted_history` string of utils.py:241-244: the formatted entries
joined by newlines in history order. -/
def formattedHistory (conversation_history : List Msg) : String :=
  String.intercalate "\n" (conversation_history.map formatEntry)

/-- The system message of the brief-generation request (utils.py:253). -/
def briefSystemMsg : Msg :=
  { role := "system", content := "Ты — эксперт по созданию продуктовых требований." }

/-- The single completion request built by `generate_brief_document`
(utils.py:246-261): the distinct system instruction, the template with the
formatted history substituted, and the 2000-token budget. -/
def generate_brief_request (conversation_history : List Msg) : ChatRequest :=
  { messages := [briefSystemMsg,
      { role := "user",
        content := briefTemplateBefore ++ formattedHistory conversation_history
          ++ briefTemplateAfter }],
    max_tokens := 2000 }

/-- `generate_brief_document` (utils.py:228-263) as the list of completion
requests it issues together with the backend outcome it returns. -/
def generate_brief_document (conversation_history : List Msg)
    (backend : Except Unit String) : List ChatRequest × Except Unit String :=
  ([generate_brief_request conversation_history], backend)

/-- The `/generate` handler (bot.py:73-127): reject when no session exists or
`message_count < 6`; otherwise issue the single brief request over the full
history and on success mark the session `completed`; on failure reply with
the brief failure text and leave the store unchanged. -/
def generate (m : Store) (user_id : Int) (backend : Except Unit String) :
    HandlerResult :=
  match get_session m user_id with
  | none => { store := m, replies := [Reply.noActiveSession], requests := [] }
  | some session =>
    if session.metadata.message_count < 6 then
      { store := m, replies := [Reply.generateNotReady], requests := [] }
    else
      let conversation := get_messages m user_id
      match generate_brief_document conversation backend with
      | (reqs, .error _) =>
        { store := m, replies := [Reply.generatingWait, Reply.briefFailure],
          requests := reqs }
      | (reqs, .ok document) =>
        { store := set_state m user_id "completed",
          replies := [Reply.generatingWait, Reply.documentSent document],
          requests := reqs }

/-! ### Persistence layer (utils.py:140-166)

The JSON encoder and decoder are the external json collaborator and are
value-faithful (dumps with `ensure_ascii=False` followed by loads returns an
equal value, non-ASCII text included), so session values are carried as-is;
the transformation the repository itself performs is the key conversion
`{str(k): v}` on save and `{int(k): v}` on load, embedded here with a
decimal printer and parser for the keys. -/

/-- Little-endian decimal digits of a natural number, the digits of Python
`str(n)` in reverse order. -/
def natDigitsRev (n : Nat) : List Nat :=
  if h : n < 10 then [n]
  else (n % 10) :: natDigitsRev (n / 10)
termination_by n
decreasing_by exact Nat.div_lt_self (by omega) (by omega)

/-- The character of one decimal digit. -/
def digitChar (d : Nat) : Char := Char.ofNat (48 + d)

/-- The character sequence of Python `str(n)` for a natural number. -/
def natKeyChars (n : Nat) : List Char := (natDigitsRev n).reverse.map digitChar

/-- Python `str(k)` for an int dict key (utils.py:161): an optional minus
sign followed by the decimal digits. -/
def intKeyStr (i : Int) : String :=
  match i with
  | .ofNat n => String.mk (natKeyChars n)
  | .negSucc n => String.mk ('-' :: natKeyChars (n + 1))

/-- The value of one decimal digit character, none for a non-digit. -/
def digitVal (c : Char) : Option Nat :=
  if 48 ≤ c.toNat ∧ c.toNat ≤ 57 then some (c.toNat - 48) else none

/-- Left-to-right accumulation of decimal digit characters. -/
def parseDigits : List Char → Nat → Option Nat
  | [], acc => some acc
  | c :: rest, acc =>
    match digitVal c with
    | some d => parseDigits rest (acc * 10 + d)
    | none => none

/-- Python `int(k)` on the characters of a string dict key: an optional
minus sign followed by at least one decimal digit, none (an exception)
otherwise. -/
def intKeyParseChars : List Char → Option Int
  | [] => none
  | c :: rest =>
    if c = '-' then
      if rest = [] then none
      else (parseDigits rest 0).map (fun n => -(n : Int))
    else
      (parseDigits (c :: rest) 0).map (fun n => (n : Int))

/-- Python `int(k)` on a string dict key (utils.py:148). -/
def intKeyParse (s : String) : Option Int := intKeyParseChars s.data

/-- The data transform of `SessionManager.save_sessions` (utils.py:161):
`{str(k): v for k, v in self.sessions.items()}`. -/
def saveData (m : Store) : List (String × Session) :=
  m.map (fun e => (intKeyStr e.1, e.2))

/-- The data transform of `SessionManager.load_sessions` (utils.py:148):
`{int(k): v for k, v in data.items()}` evaluated left to right, none when
some key fails to parse (Python raises there). -/
def loadData : List (String × Session) → Option Store
  | [] => some []
  | p :: d =>
    match intKeyParse p.1 with
    | none => none
    | some k =>
      match loadData d with
      | none => none
      | some r => some ((k, p.2) :: r)

/-- `SessionManager.load_sessions` with its exception fallback
(utils.py:153-155): a failed load leaves the empty mapping. -/
def load_sessions (d : List (String × Session)) : Store :=
  (loadData d).getD []

/-! ### Decimal round-trip lemmas -/

theorem natDigitsRev_eq (n : Nat) :
    natDigitsRev n = if n < 10 then [n] else (n % 10) :: natDigitsRev (n / 10) := by
  rw [natDigitsRev]
  by_cases h : n < 10 <;> simp [h]

theorem natDigitsRev_ne_nil (n : Nat) : natDigitsRev n ≠ [] := by
  rw [natDigitsRev_eq]
  by_cases h : n < 10 <;> simp [h]

theorem natDigitsRev_digits_lt (n : Nat) : ∀ d ∈ natDigitsRev n, d < 10 := by
  induction n using Nat.strong_induction_on with
  | _ n ih =>
    rw [natDigitsRev_eq]
    by_cases h : n < 10
    · simp [h]
    · simp only [if_neg h, List.mem_cons]
      rintro d (rfl | hd)
      · exact Nat.mod_lt n (by omega)
      · exact ih (n / 10) (Nat.div_lt_self (by omega) (by omega)) d hd

theorem digitVal_digitChar (d : Nat) (hd : d < 10) :
    digitVal (digitChar d) = some d := by
  interval_cases d <;> rfl

theorem digitChar_ne_minus (d : Nat) (hd : d < 10) : digitChar d ≠ '-' := by
  interval_cases d <;> decide

theorem parseDigits_append (xs ys : List Char) (acc : Nat) :
    parseDigits (xs ++ ys) acc =
      (parseDigits xs acc).bind (fun mid => parseDigits ys mid) := by
  induction xs generalizing acc with
  | nil => simp [parseDigits]
  | cons c rest ih =>
    simp only [List.cons_append, parseDigits]
    cases digitVal c with
    | some d => simp [ih]
    | none => simp

theorem parseDigits_natKeyChars (n : Nat) :
    ∀ acc, parseDigits (natKeyChars n) acc =
      some (acc * 10 ^ (natDigitsRev n).length + n) := by
  induction n using Nat.strong_induction_on with
  | _ n ih =>
    intro acc
    by_cases h : n < 10
    · have hdig : natDigitsRev n = [n] := by rw [natDigitsRev_eq, if_pos h]
      simp [natKeyChars, hdig, parseDigits, digitVal_digitChar n h]
    · have hdig : natDigitsRev n = (n % 10) :: natDigitsRev (n / 10) := by
        rw [natDigitsRev_eq, if_neg h]
      have hkey : natKeyChars n = natKeyChars (n / 10) ++ [digitChar (n % 10)] := by
        simp [natKeyChars, hdig]
      rw [hkey, parseDigits_append,
        ih (n / 10) (Nat.div_lt_self (by omega) (by omega)) acc]
      simp only [Option.bind_some, parseDigits,
        digitVal_digitChar (n % 10) (Nat.mod_lt n (by omega))]
      rw [hdig]
      simp only [List.length_cons, pow_succ, Option.some_bind, Option.some.injEq]
      have hsplit : n / 10 * 10 + n % 10 = n := by omega
      calc (acc * 10 ^ (natDigitsRev (n / 10)).length + n / 10) * 10 + n % 10
          = acc * (10 ^ (natDigitsRev (n / 10)).length * 10)
              + (n / 10 * 10 + n % 10) := by ring
        _ = acc * (10 ^ (natDigitsRev (n / 10)).length * 10) + n := by rw [hsplit]

theorem natKeyChars_shape (n : Nat) :
    ∃ d ds, natKeyChars n = digitChar d :: ds ∧ d < 10 := by
  cases hrev : (natDigitsRev n).reverse with
  | nil =>
    exact absurd (List.reverse_eq_nil_iff.mp hrev) (natDigitsRev_ne_nil n)
  | cons e es =>
    refine ⟨e, es.map digitChar, ?_, ?_⟩
    · simp [natKeyChars, hrev]
    · exact natDigitsRev_digits_lt n e
        (by rw [← List.mem_reverse, hrev]; exact List.mem_cons_self e es)

theorem intKeyParse_intKeyStr (i : Int) : intKeyParse (intKeyStr i) = some i := by
  cases i with
  | ofNat n =>
    obtain ⟨d, ds, hkey, hd⟩ := natKeyChars_shape n
    have hdata : (intKeyStr (Int.ofNat n)).data = digitChar d :: ds := by
      simp [intKeyStr, hkey]
    rw [intKeyParse, hdata, intKeyParseChars,
      if_neg (digitChar_ne_minus d hd), ← hkey, parseDigits_natKeyChars n 0]
    simp
  | negSucc n =>
    obtain ⟨d, ds, hkey, hd⟩ := natKeyChars_shape (n + 1)
    have hdata : (intKeyStr (Int.negSucc n)).data = '-' :: natKeyChars (n + 1) := by
      simp [intKeyStr]
    rw [intKeyParse, hdata, intKeyParseChars, if_pos rfl, if_neg (by simp [hkey]),
      parseDigits_natKeyChars (n + 1) 0]
    simp [Int.negSucc_eq]

theorem loadData_saveData (m : Store) : loadData (saveData m) = some m := by
  induction m with
  | nil => rfl
  | cons e rest ih =>
    show (match intKeyParse (intKeyStr e.1) with
      | none => none
      | some k =>
        match loadData (saveData rest) with
        | none => none
        | some r => some ((k, e.2) :: r)) = some (e :: rest)
    rw [intKeyParse_intKeyStr, ih]

/-! ### Further store lemmas -/

theorem get_session_add_message (m : Store) (uid : Int) (r c : String)
    (sess : Session) (h : get_session m uid = some sess) :
    get_session (add_message m uid r c) uid =
      some { sess with
        messages := sess.messages ++ [{ role := r, content := c }]
        metadata := { sess.metadata with
          message_count := sess.metadata.message_count + 1 } } := by
  rw [add_message, get_session_modifyEntry_self, h]
  rfl

theorem foldl_add_message (calls : List (String × String)) (m : Store)
    (uid : Int) (sess : Session) (h : get_session m uid = some sess) :
    get_session (calls.foldl (fun st rc => add_message st uid rc.1 rc.2) m) uid =
      some { sess with
        messages := sess.messages
          ++ calls.map (fun rc => { role := rc.1, content := rc.2 })
        metadata := { sess.metadata with
          message_count := sess.metadata.message_count + calls.length } } := by
  induction calls generalizing m sess with
  | nil => simpa using h
  | cons rc rest ih =>
    simp only [List.foldl_cons]
    rw [ih _ _ (get_session_add_message m uid rc.1 rc.2 sess h)]
    simp [List.append_assoc]
    omega

/-! ### Claim theorems -/

/-- C1: after `create_session` for a user followed by any sequence of
`add_message` calls for that user, the stored session holds exactly the
appended entries in call order and its `metadata.message_count` equals the
number of `add_message` calls made (each call appends one entry and adds one
to the count; none removes an entry). -/
theorem C1_message_count_equals_adds (m : Store) (uid : Int)
    (calls : List (String × String)) :
    get_session (calls.foldl (fun st rc => add_message st uid rc.1 rc.2)
        (create_session m uid).1) uid =
      some { user_id := uid
             messages := calls.map (fun rc => { role := rc.1, content := rc.2 })
             state := "in_conversation"
             metadata := { created_at := none, message_count := calls.length } } := by
  rw [foldl_add_message calls (create_session m uid).1 uid (new_session uid)
    (get_session_setEntry_self m uid (new_session uid))]
  simp [new_session]

/-- C5: `create_session` installs a fresh session — state `in_conversation`,
empty history, zero count — under the identity, overwriting whatever was
stored there, and `get_session` returns exactly a stored entry or none,
never fabricating a session. -/
theorem C5_create_fresh_get_faithful (m : Store) (uid : Int) :
    get_session (create_session m uid).1 uid =
      some { user_id := uid, messages := [], state := "in_conversation",
             metadata := { created_at := none, message_count := 0 } }
    ∧ (∀ sess, get_session m uid = some sess → (uid, sess) ∈ m)
    ∧ (get_session m uid = none → ∀ e ∈ m, e.1 ≠ uid) := by
  refine ⟨get_session_setEntry_self m uid (new_session uid), ?_, ?_⟩
  · intro sess hs
    obtain ⟨e, hfind, he2⟩ : ∃ e, m.find? (fun e => e.1 == uid) = some e ∧ e.2 = sess := by
      cases hf : m.find? (fun e => e.1 == uid) with
      | none => rw [get_session, hf] at hs; simp at hs
      | some e =>
        refine ⟨e, rfl, ?_⟩
        rw [get_session, hf] at hs
        simpa using hs
    have hmem := List.mem_of_find?_eq_some hfind
    have he1 : e.1 = uid := by simpa using List.find?_some hfind
    have he : e = (uid, sess) := by
      obtain ⟨e1, e2⟩ := e
      simp_all
    rw [← he]
    exact hmem
  · intro hnone e hmem
    have hfind : m.find? (fun e => e.1 == uid) = none := by
      cases hf : m.find? (fun e => e.1 == uid) with
      | none => rfl
      | some e => rw [get_session, hf] at hnone; simp at hnone
    have := List.find?_eq_none.mp hfind e hmem
    simpa using this

/-- C5 witness: the theorem applied at a store already holding a session for
user 3, checking the fresh overwrite concretely. -/
theorem C5_witness :
    get_session (create_session [(3, new_session 3)] 3).1 3 =
      some { user_id := 3, messages := [], state := "in_conversation",
             metadata := { created_at := none, message_count := 0 } }
    ∧ (∀ sess, get_session [(3, new_session 3)] 3 = some sess →
        ((3 : Int), sess) ∈ [((3 : Int), new_session 3)])
    ∧ (get_session [(3, new_session 3)] 3 = none →
        ∀ e ∈ [((3 : Int), new_session 3)], e.1 ≠ 3) :=
  C5_create_fresh_get_faithful [(3, new_session 3)] 3

/-- C7: saving the store and loading the result back yields the identical
mapping: keys are stringified on save and parsed back to int on load, and
session values (non-ASCII content included) are carried unchanged. -/
theorem C7_save_load_round_trip (m : Store) :
    loadData (saveData m) = some m ∧ load_sessions (saveData m) = m := by
  refine ⟨loadData_saveData m, ?_⟩
  rw [load_sessions, loadData_saveData]
  rfl

/-- C8: the document generator formats every history entry as the role
upper-cased, then a colon and space, then the content, joins the formatted
entries with newlines in history order, and issues exactly one completion
request embedding the whole formatted history. -/
theorem C8_brief_request_format (history : List Msg) (backend : Except Unit String) :
    (generate_brief_document history backend).1 =
      [{ messages := [briefSystemMsg,
          { role := "user",
            content := briefTemplateBefore
              ++ String.intercalate "\n"
                  (history.map (fun msg => upperStr msg.role ++ ": " ++ msg.content))
              ++ briefTemplateAfter }],
         max_tokens := 2000 }] := rfl

/-- C9: every mutating store operation invoked for one user leaves the
session stored for any distinct user unchanged; the read operations
(`get_session`, `get_messages`, `get_state`) take the store and return only
values, so they cannot change any entry. -/
theorem C9_frame_other_users (m : Store) (u v : Int) (r c st : String)
    (hne : u ≠ v) :
    get_session (create_session m u).1 v = get_session m v
    ∧ get_session (delete_session m u) v = get_session m v
    ∧ get_session (add_message m u r c) v = get_session m v
    ∧ get_session (set_state m u st) v = get_session m v :=
  ⟨get_session_setEntry_ne m u v (new_session u) hne,
   get_session_eraseEntry_ne m u v hne,
   get_session_modifyEntry_ne m u v _ hne,
   get_session_modifyEntry_ne m u v _ hne⟩

/-- C9 witness: the frame property at a concrete store holding a session for
user 2 while user 1 is operated on. -/
theorem C9_witness :
    get_session (create_session [(2, new_session 2)] 1).1 2
        = get_session [(2, new_session 2)] 2
    ∧ get_session (delete_session [(2, new_session 2)] 1) 2
        = get_session [(2, new_session 2)] 2
    ∧ get_session (add_message [(2, new_session 2)] 1 "user" "hi") 2
        = get_session [(2, new_session 2)] 2
    ∧ get_session (set_state [(2, new_session 2)] 1 "completed") 2
        = get_session [(2, new_session 2)] 2 :=
  C9_frame_other_users [(2, new_session 2)] 1 2 "user" "hi" "completed" (by decide)

/-- C10: for a user with no stored session, `get_messages` returns the empty
list and `get_state` returns none; both are pure reads of the store, so the
mapping is unchanged by the call. -/
theorem C10_missing_session_reads (m : Store) (uid : Int)
    (h : get_session m uid = none) :
    get_messages m uid = [] ∧ get_state m uid = none := by
  constructor <;> simp [get_messages, get_state, h]

/-- C10 witness: the reads on the empty store for user 7. -/
theorem C10_witness : get_messages [] 7 = [] ∧ get_state [] 7 = none :=
  C10_missing_session_reads [] 7 rfl

theorem get_state_eq_map (m : Store) (uid : Int) :
    get_state m uid = (get_session m uid).map Session.state := by
  cases h : get_session m uid <;> simp [get_state, h]

/-- C2: a generation request for an existing session whose
`metadata.message_count` is below six is rejected with the not-ready reply,
issues no completion request, and returns the store unchanged (so state,
messages and metadata are untouched). -/
theorem C2_generate_below_threshold (m : Store) (uid : Int) (sess : Session)
    (backend : Except Unit String)
    (hs : get_session m uid = some sess)
    (hlt : sess.metadata.message_count < 6) :
    generate m uid backend =
      { store := m, replies := [Reply.generateNotReady], requests := [] } := by
  simp [generate, hs, hlt]

/-- C2 witness: the fresh session of user 7 has count zero, so generation is
rejected without touching the store or the backend. -/
theorem C2_witness :
    generate [(7, new_session 7)] 7 (Except.ok "doc") =
      { store := [(7, new_session 7)], replies := [Reply.generateNotReady],
        requests := [] } :=
  C2_generate_below_threshold [(7, new_session 7)] 7 (new_session 7)
    (Except.ok "doc") (by decide) (by decide)

/-- C3: when the completion succeeds during an exchange for an existing
session, the state afterwards is `ready_for_brief` exactly when the response
contains the trigger token case-insensitively, and is the previous state
otherwise. -/
theorem C3_trigger_transition (m : Store) (uid : Int) (sess : Session)
    (msg resp : String) (hs : get_session m uid = some sess) :
    get_state (process_conversation m uid msg (Except.ok resp)).store uid =
      some (if containsTrigger resp then "ready_for_brief" else sess.state) := by
  have h1 := get_session_add_message m uid "user" msg sess hs
  have h2 := get_session_add_message _ uid "assistant" resp _ h1
  simp only [process_conversation]
  by_cases ht : containsTrigger resp
  · simp [ht, get_state_eq_map, set_state, get_session_modifyEntry_self, h2]
  · simp [ht, get_state_eq_map, h2]

/-- C3 witness: a response carrying the trigger in upper case moves user 5
from `in_conversation` to the state given by the trigger scan. -/
theorem C3_witness :
    get_state (process_conversation [(5, new_session 5)] 5 "hi"
        (Except.ok "Ready: /GENERATE")).store 5 =
      some (if containsTrigger "Ready: /GENERATE" then "ready_for_brief"
        else (new_session 5).state) :=
  C3_trigger_transition [(5, new_session 5)] 5 (new_session 5) "hi"
    "Ready: /GENERATE" (by decide)

/-- C4: when the completion fails during an exchange for an existing session,
the stored history afterwards is the previous history with exactly the
just-added user entry appended (count up by one, state unchanged, no
assistant entry), the only reply is the generic failure text, and exactly
one backend request was issued (no retry). -/
theorem C4_backend_failure_preserves (m : Store) (uid : Int) (sess : Session)
    (msg : String) (hs : get_session m uid = some sess) :
    get_session (process_conversation m uid msg (Except.error ())).store uid =
      some { sess with
        messages := sess.messages ++ [{ role := "user", content := msg }]
        metadata := { sess.metadata with
          message_count := sess.metadata.message_count + 1 } }
    ∧ (process_conversation m uid msg (Except.error ())).replies
        = [Reply.conversationFailure]
    ∧ (process_conversation m uid msg (Except.error ())).requests.length = 1 := by
  refine ⟨?_, by simp [process_conversation], by simp [process_conversation]⟩
  simp only [process_conversation]
  exact get_session_add_message m uid "user" msg sess hs

/-- C4 witness: a failing backend call for user 4 leaves only the user entry
appended, emits the failure reply, and one request was issued. -/
theorem C4_witness :
    get_session (process_conversation [(4, new_session 4)] 4 "hi"
        (Except.error ())).store 4 =
      some { new_session 4 with
        messages := (new_session 4).messages ++ [{ role := "user", content := "hi" }]
        metadata := { (new_session 4).metadata with
          message_count := (new_session 4).metadata.message_count + 1 } }
    ∧ (process_conversation [(4, new_session 4)] 4 "hi" (Except.error ())).replies
        = [Reply.conversationFailure]
    ∧ (process_conversation [(4, new_session 4)] 4 "hi"
        (Except.error ())).requests.length = 1 :=
  C4_backend_failure_preserves [(4, new_session 4)] 4 (new_session 4) "hi" (by decide)

/-- C6: for every exchange with an existing session, the single outbound
request carries the fixed system instruction prepended to the entire stored
history including the just-appended user message — the first-message special
case produces the same list — with no truncation at any length. -/
theorem C6_outbound_full_history (m : Store) (uid : Int) (sess : Session)
    (msg : String) (backend : Except Unit String)
    (hs : get_session m uid = some sess) :
    (process_conversation m uid msg backend).requests =
      [{ messages := { role := "system", content := SYSTEM_PROMPT } ::
          (sess.messages ++ [{ role := "user", content := msg }]),
         max_tokens := 800 }] := by
  have h1 := get_session_add_message m uid "user" msg sess hs
  have hmsgs : get_messages (add_message m uid "user" msg) uid =
      sess.messages ++ [{ role := "user", content := msg }] := by
    simp [get_messages, h1]
  rcases backend with e | resp <;>
  · simp only [process_conversation, hmsgs]
    rcases hsm : sess.messages with _ | ⟨a, l⟩ <;> simp [hsm]

/-- C6 witness: the very first message of user 6 is sent as the system
instruction followed by the one-entry history. -/
theorem C6_witness :
    (process_conversation [(6, new_session 6)] 6 "idea" (Except.ok "ok")).requests =
      [{ messages := { role := "system", content := SYSTEM_PROMPT } ::
          ((new_session 6).messages ++ [{ role := "user", content := "idea" }]),
         max_tokens := 800 }] :=
  C6_outbound_full_history [(6, new_session 6)] 6 (new_session 6) "idea"
    (Except.ok "ok") (by decide)
